import Mathlib

/-!
Verification of the staged likelihood-fitting driver in `rhoOph_analysis.py`.

The repository drives an external likelihood/optimizer backend (pyLikelihood)
through four pieces of control logic:

* `ParamChange(like, sr, change)` — freezes every parameter of the model and,
  when `change` lower-cases to `"thaw"`, re-thaws, for each source name in
  `sr`, the parameter with the lowest global index among that source.
* `LikeFit(like, fit)` — dispatches on the (case-insensitive) optimizer name
  to a backend fit call, with a covariance request for the Minuit variants.
* `IterateFit(like, PS, diff_src)` — a fixed five-stage activation and fit
  sequence.
* `main` — a model-comparison cascade of three rounds (full model, model
  without `bubble`, model without `bubble` or `HI`).

The embedding below models the backend handle `like` as a `Model` value:
the list of named sources (each holding the list of global parameter indices
the backend function `par_index` would report for its spectrum parameters)
together with the per-parameter frozen flags, which is the only backend state
the driver manipulates.  Python in-place mutation becomes explicit state
passing, and a raised exception becomes an error value carried next to the
state that was reached when the exception was raised (so that partial
mutation stays observable, exactly as it does through the shared handle in
Python).  The backend fit itself is an oracle parameter; every backend fit
invocation is recorded in a trace so that statements about stage order and
fail-fast behaviour can be made.  Log-likelihood scalars are abstracted as
integers: the driver only moves them around, it never computes with them.
-/

namespace RhoOph

/-- ASCII lower-casing of one character; the embedding of what Python
`str.lower` does on the ASCII strings this program uses. -/
def charLower (c : Char) : Char :=
  if 65 ≤ c.toNat ∧ c.toNat ≤ 90 then Char.ofNat (c.toNat + 32) else c

/-- ASCII lower-casing of a string, the embedding of Python `.lower()`. -/
def strLower (s : String) : String := ⟨s.data.map charLower⟩

/-- Error kinds the driver or its backend can raise.  `invalidArgument`
stands for Python `ValueError`, `notFound` for the lookup failure of a
missing source name, `unsupportedStrategy` for the `KeyError` raised on an
unrecognized optimizer name, and `backendFitFailure` for a numerical failure
inside the external optimizer. -/
inductive Err where
  | invalidArgument : String → Err
  | notFound : String → Err
  | unsupportedStrategy : String → Err
  | backendFitFailure : String → Err
deriving DecidableEq, Repr

instance {ε α : Type} [DecidableEq ε] [DecidableEq α] : DecidableEq (Except ε α) :=
  fun x y =>
    match x, y with
    | Except.ok a, Except.ok b =>
      if h : a = b then Decidable.isTrue (by rw [h])
      else Decidable.isFalse (fun hc => h (Except.ok.inj hc))
    | Except.error a, Except.error b =>
      if h : a = b then Decidable.isTrue (by rw [h])
      else Decidable.isFalse (fun hc => h (Except.error.inj hc))
    | Except.ok _, Except.error _ => Decidable.isFalse (fun hc => Except.noConfusion hc)
    | Except.error _, Except.ok _ => Decidable.isFalse (fun hc => Except.noConfusion hc)

/-- One named source of the model.  `paramIdxs` is the list of global
parameter indices that the backend `par_index` reports for the parameter
names of the spectrum of this source. -/
structure Source where
  name : String
  paramIdxs : List Nat
deriving DecidableEq, Repr

/-- The backend model handle, restricted to the state the driver reads or
writes: the named sources and the frozen flag of every global parameter
(`frozen.length` plays the role of `len(like.model.params)`). -/
structure Model where
  sources : List Source
  frozen : List Bool
deriving DecidableEq, Repr

/-- Backend primitive `like.freeze(i)`. -/
def Model.freeze (m : Model) (i : Nat) : Model :=
  { m with frozen := m.frozen.set i true }

/-- Backend primitive `like.thaw(i)`. -/
def Model.thaw (m : Model) (i : Nat) : Model :=
  { m with frozen := m.frozen.set i false }

/-- The freeze-everything loop
`for i in xrange(len(like.model.params)): like.freeze(i)`. -/
def freezeAll (m : Model) : Model :=
  (List.range m.frozen.length).foldl Model.freeze m

/-- Backend lookup `like.model[src]`. -/
def findSource (m : Model) (nm : String) : Option Source :=
  m.sources.find? (fun s => s.name == nm)

/-- The thaw loop of `ParamChange`:
`for src in sr:` resolve the source, take the minimum of its parameter
indices, and thaw it.  A missing source raises the lookup error; an empty
parameter list makes the Python `min` raise `ValueError`.  The returned
model is the state reached when the loop stops, also on error. -/
def thawLoop (m : Model) (names : List String) : Model × Option Err :=
  match names with
  | [] => (m, none)
  | src :: rest =>
    match findSource m src with
    | none => (m, some (Err.notFound src))
    | some s =>
      match s.paramIdxs.min? with
      | none => (m, some (Err.invalidArgument "min arg is an empty sequence"))
      | some i => thawLoop (m.thaw i) rest

/-- `ParamChange(like, sr, change)` (source lines 105-126): raise
`ValueError` on an empty source list, freeze every parameter, and when
`change.lower() == "thaw"` thaw the lowest-indexed parameter of every named
source.  The first component is the state of the shared handle when the call
returns or raises; the second is the raised error, if any. -/
def ParamChange (like : Model) (sr : List String) (change : String) :
    Model × Option Err :=
  if sr.length = 0 then (like, some (Err.invalidArgument "No source specified"))
  else
    let like := freezeAll like
    if strLower change = "thaw" then thawLoop like sr
    else (like, none)

/-- The two Minuit optimizer objects `pyLike.NewMinuit` / `pyLike.Minuit`. -/
inductive OptObject where
  | newMinuit
  | minuit
deriving DecidableEq, Repr

/-- One backend fit invocation: the optimizer object passed to `like.fit`
(`none` when `like.fit()` is called with the default optimizer, as in the
DRMNFB branch) and whether a covariance matrix was requested (`covar=True`). -/
structure FitCall where
  optObject : Option OptObject
  covar : Bool
deriving DecidableEq, Repr

/-- The backend call made by the NewMinuit branch of `LikeFit`. -/
def preciseCall : FitCall := ⟨some OptObject.newMinuit, true⟩

/-- The backend call made by the Minuit branch of `LikeFit`. -/
def minuitCall : FitCall := ⟨some OptObject.minuit, true⟩

/-- The backend call made by the DRMNFB branch of `LikeFit`
(`like.fit()`: default optimizer, no covariance request). -/
def fastCall : FitCall := ⟨none, false⟩

/-- The external optimizer: given the model state and the fit invocation it
returns the log-likelihood and the updated model, or a backend failure.  It
is deterministic, as a function must be. -/
def Backend : Type := Model → FitCall → Except Err (Int × Model)

/-- Observable events of a scheduler run: a `ParamChange` activation with
its source set, or a backend fit invocation with the model state it was
handed and the call that was made. -/
inductive Event where
  | activate : List String → Event
  | fit : Model → FitCall → Event
deriving DecidableEq, Repr

/-- State threaded through a scheduler run: the shared model handle plus the
trace of events so far. -/
structure St where
  model : Model
  trace : List Event
deriving DecidableEq, Repr

/-- `ParamChange` acting on the threaded state, recording the activation. -/
def ParamChangeM (sr : List String) (change : String) (s : St) :
    St × Except Err Unit :=
  match ParamChange s.model sr change with
  | (m, none) => (⟨m, s.trace ++ [Event.activate sr]⟩, Except.ok ())
  | (m, some e) => (⟨m, s.trace ++ [Event.activate sr]⟩, Except.error e)

/-- One backend fit invocation on the threaded state: the call is recorded,
then the backend outcome is applied. -/
def doFit (b : Backend) (c : FitCall) (s : St) : St × Except Err Int :=
  match b s.model c with
  | Except.ok (lg, m) => (⟨m, s.trace ++ [Event.fit s.model c]⟩, Except.ok lg)
  | Except.error e => (⟨s.model, s.trace ++ [Event.fit s.model c]⟩, Except.error e)

/-- `LikeFit(like, fit)` (source lines 54-73) on the threaded state:
case-insensitive dispatch on the optimizer name; the Minuit variants request
a covariance matrix, DRMNFB calls `like.fit()` plain; any other name raises
`KeyError` before the backend is reached. -/
def likeFitM (b : Backend) (fitName : String) (s : St) : St × Except Err Int :=
  if strLower fitName = "newminuit" then doFit b preciseCall s
  else if strLower fitName = "minuit" then doFit b minuitCall s
  else if strLower fitName = "drmnfb" then doFit b fastCall s
  else (s, Except.error (Err.unsupportedStrategy
    "Improper optimizer. Use NewMinuit, Minuit, or DRMNFB"))

/-- `LikeFit` as called on a bare handle: returns the pair
`(lglike, like)` of the source, or the raised error. -/
def LikeFit (b : Backend) (like : Model) (fitName : String) :
    Except Err (Int × Model) :=
  match likeFitM b fitName ⟨like, []⟩ with
  | (s, Except.ok lg) => Except.ok (lg, s.model)
  | (_, Except.error e) => Except.error e

/-- `IterateFit(like, PS, diff_src)` (source lines 75-103): the five-stage
sequence.  Each Python statement is one step; a raised error stops the run
and is returned with the state reached.  The returned integer is
`lglike_diff_newmin` of the final fit. -/
def IterateFit (b : Backend) (PS diff_src : List String) (s0 : St) :
    St × Except Err Int :=
  match ParamChangeM PS "thaw" s0 with
  | (s1, Except.error e) => (s1, Except.error e)
  | (s1, Except.ok _) =>
  match likeFitM b "DRMNFB" s1 with
  | (s2, Except.error e) => (s2, Except.error e)
  | (s2, Except.ok _lglike1_ps) =>
  match ParamChangeM diff_src "thaw" s2 with
  | (s3, Except.error e) => (s3, Except.error e)
  | (s3, Except.ok _) =>
  match likeFitM b "DRMNFB" s3 with
  | (s4, Except.error e) => (s4, Except.error e)
  | (s4, Except.ok _lglike1_diff) =>
  match likeFitM b "NewMinuit" s4 with
  | (s5, Except.error e) => (s5, Except.error e)
  | (s5, Except.ok _lglike_diff_newmin) =>
  match ParamChangeM PS "thaw" s5 with
  | (s6, Except.error e) => (s6, Except.error e)
  | (s6, Except.ok _) =>
  match likeFitM b "DRMNFB" s6 with
  | (s7, Except.error e) => (s7, Except.error e)
  | (s7, Except.ok _lglike_ps2) =>
  match ParamChangeM diff_src "thaw" s7 with
  | (s8, Except.error e) => (s8, Except.error e)
  | (s8, Except.ok _) =>
  match likeFitM b "NewMinuit" s8 with
  | (s9, Except.error e) => (s9, Except.error e)
  | (s9, Except.ok lglike_diff_newmin) => (s9, Except.ok lglike_diff_newmin)

/-- Backend operation `like.deleteSource(name)`: destroys the named source,
failing on a missing name.  The internal re-indexing of the remaining
parameters is backend private state that no theorem below depends on, so the
frozen-flag store is kept as is. -/
def deleteSource (m : Model) (nm : String) : Except Err Model :=
  match findSource m nm with
  | some _ => Except.ok ⟨m.sources.filter (fun s => s.name != nm), m.frozen⟩
  | none => Except.error (Err.notFound nm)

/-- One record per cascade round: the round number, the snapshot of the
active diffuse-source set the scheduler was run with, and the resulting
log-likelihood (the serialized-model artifact is external output). -/
structure RoundRecord where
  label : Nat
  activeDiffuse : List String
  loglike : Int
deriving DecidableEq, Repr

/-- Modelled from the spec: the rounds of the Model Comparison Cascade after
round 0 (spec section 4.4).  The repository source only contains the one
case `removalOrder = ["bubble", "HI"]`, unrolled by hand in `main`
(lines 175-205): delete the named source from the model, drop its name from
the diffuse set (`diff_src.pop(diff_src.index(name))`, which removes the
first occurrence), re-run the scheduler, and record the result.  A failed
round produces no further records and surfaces its error. -/
def cascadeRounds (b : Backend) (like : Model) (PS diffuse : List String)
    (order : List String) (roundNo : Nat) : List RoundRecord × Option Err :=
  match order with
  | [] => ([], none)
  | r :: rest =>
    match deleteSource like r with
    | Except.error e => ([], some e)
    | Except.ok like1 =>
      match IterateFit b PS (diffuse.erase r) ⟨like1, []⟩ with
      | (_, Except.error e) => ([], some e)
      | (s, Except.ok lg) =>
        ((⟨roundNo, diffuse.erase r, lg⟩ : RoundRecord) ::
            (cascadeRounds b s.model PS (diffuse.erase r) rest (roundNo + 1)).1,
          (cascadeRounds b s.model PS (diffuse.erase r) rest (roundNo + 1)).2)

/-- Modelled from the spec: the whole Model Comparison Cascade
`runCascade(model, pointSources, diffuseSources, removalOrder)` of spec
section 4.4.  Round 0 fits the full model; then one round per name of the
removal order, as in `cascadeRounds`; `main` is its hand-unrolled instance. -/
def runCascade (b : Backend) (like : Model) (PS diffuse order : List String) :
    List RoundRecord × Option Err :=
  match IterateFit b PS diffuse ⟨like, []⟩ with
  | (_, Except.error e) => ([], some e)
  | (s, Except.ok lg) =>
    ((⟨0, diffuse, lg⟩ : RoundRecord) ::
        (cascadeRounds b s.model PS diffuse order 1).1,
      (cascadeRounds b s.model PS diffuse order 1).2)

/-- The diffuse-set snapshot of every cascade round, round 0 first:
each later round erases the next name of the removal order. -/
def snapshots : List String → List String → List (List String)
  | diffuse, [] => [diffuse]
  | diffuse, r :: rest => diffuse :: snapshots (diffuse.erase r) rest

/-- The global parameter indices that the thaw loop of `ParamChange`
targets for a given source-name list: per name, the minimum parameter index
of the source it resolves to. -/
def thawTargets (m : Model) (names : List String) : List Nat :=
  names.filterMap (fun nm => (findSource m nm).bind (fun s => s.paramIdxs.min?))

/-- The backend fit invocations of a trace, in order. -/
def fitEvents : List Event → List FitCall
  | [] => []
  | Event.activate _ :: rest => fitEvents rest
  | Event.fit _ c :: rest => c :: fitEvents rest

/-- The fit-call sequence of a complete scheduler run: fast, fast, precise,
fast, precise. -/
def stagePlan : List FitCall :=
  [fastCall, fastCall, preciseCall, fastCall, preciseCall]

/-! ### Concrete fixtures used by the witnesses -/

/-- A small well-formed model: one point source and one diffuse source,
two parameters each, everything thawed initially. -/
def mW : Model := ⟨[⟨"p1", [0, 1]⟩, ⟨"HI", [2, 3]⟩], [false, false, false, false]⟩

/-- A two-source model for the non-atomicity counterexample. -/
def mC10 : Model := ⟨[⟨"a", [0]⟩, ⟨"b", [1]⟩], [false, false]⟩

/-- The four-source model of the cascade witness: a point source and the
diffuse sources a, b, c. -/
def mABC : Model :=
  ⟨[⟨"p1", [0]⟩, ⟨"a", [1]⟩, ⟨"b", [2]⟩, ⟨"c", [3]⟩], [false, false, false, false]⟩

/-- A backend that always converges, reports log-likelihood 7 and leaves the
parameter state alone. -/
def okBackend : Backend := fun m _ => Except.ok (7, m)

/-- A backend that diverges exactly on fits that request a covariance matrix
(so the first precise stage fails) and otherwise reports 5. -/
def failPreciseBackend : Backend := fun m c =>
  if c.covar then Except.error (Err.backendFitFailure "optimizer did not converge")
  else Except.ok (5, m)

/-! ### List-level helper lemmas about the freeze/thaw folds -/

theorem foldl_set_length (bv : Bool) :
    ∀ (is : List Nat) (l : List Bool),
      (is.foldl (fun acc i => acc.set i bv) l).length = l.length
  | [], _ => rfl
  | i :: is, l => by
    rw [List.foldl_cons, foldl_set_length bv is, List.length_set]

theorem foldl_set_getElem? (bv : Bool) :
    ∀ (is : List Nat) (l : List Bool) (j : Nat), j < l.length →
      (is.foldl (fun acc i => acc.set i bv) l)[j]? =
        if j ∈ is then some bv else l[j]?
  | [], l, j, _ => by simp
  | i :: is, l, j, hj => by
    rw [List.foldl_cons, foldl_set_getElem? bv is (l.set i bv) j (by simpa using hj)]
    by_cases hmem : j ∈ is
    · simp [hmem]
    · by_cases hij : i = j
      · subst hij
        simp [hmem, List.getElem?_set_self hj]
      · have hnotin : j ∉ i :: is := by
          simp only [List.mem_cons]
          rintro (h | h)

          · exact hij h.symm
          · exact hmem h
        rw [if_neg hmem, if_neg hnotin, List.getElem?_set_ne hij]

theorem count_set_false :
    ∀ (l : List Bool) (i : Nat), l[i]? = some true →
      (l.set i false).count false = l.count false + 1
  | [], i, h => by simp at h
  | x :: xs, 0, h => by
    have hx : x = true := by simpa using h
    subst hx
    simp [List.count_cons]
  | x :: xs, i + 1, h => by
    have hx : xs[i]? = some true := by simpa using h
    have ih := count_set_false xs i hx
    cases x <;> simp [List.count_cons, ih]

theorem count_foldl_set_false :
    ∀ (is : List Nat) (l : List Bool), is.Nodup → (∀ i ∈ is, l[i]? = some true) →
      (is.foldl (fun acc i => acc.set i false) l).count false =
        l.count false + is.length
  | [], l, _, _ => by simp
  | i :: is, l, hnd, hall => by
    rw [List.foldl_cons]
    have hi : l[i]? = some true := hall i (List.mem_cons_self i is)
    have hrest : ∀ k ∈ is, (l.set i false)[k]? = some true := by
      intro k hk
      have hne : i ≠ k := by
        intro hik
        exact (List.nodup_cons.mp hnd).1 (hik ▸ hk)
      rw [List.getElem?_set]
      simp [hne]
      exact hall k (List.mem_cons_of_mem i hk)
    rw [count_foldl_set_false is (l.set i false) (List.nodup_cons.mp hnd).2 hrest,
      count_set_false l i hi]
    simp [List.length_cons]
    omega

/-! ### Characterization of `freezeAll` -/

theorem foldl_freeze_decomp :
    ∀ (is : List Nat) (m : Model),
      is.foldl Model.freeze m =
        ⟨m.sources, is.foldl (fun acc i => acc.set i true) m.frozen⟩
  | [], m => rfl
  | i :: is, m => by
    rw [List.foldl_cons, List.foldl_cons, foldl_freeze_decomp is (m.freeze i)]
    rfl

theorem freezeAll_eq (m : Model) :
    freezeAll m = ⟨m.sources, List.replicate m.frozen.length true⟩ := by
  rw [freezeAll, foldl_freeze_decomp]
  congr 1
  apply List.ext_getElem?
  intro j
  by_cases hj : j < m.frozen.length
  · rw [foldl_set_getElem? true (List.range m.frozen.length) m.frozen j hj]
    simp [hj, List.mem_range]
  · have h1 : m.frozen.length ≤ j := Nat.le_of_not_lt hj
    rw [List.getElem?_eq_none (by rwa [foldl_set_length]),
      List.getElem?_eq_none (by rwa [List.length_replicate])]

/-! ### Characterization of the thaw loop and of `ParamChange` -/

theorem thawLoop_ok :
    ∀ (names : List String) (m : Model),
      (∀ nm ∈ names, ∃ s, findSource m nm = some s ∧ s.paramIdxs ≠ []) →
      thawLoop m names =
        (⟨m.sources,
          (thawTargets m names).foldl (fun acc i => acc.set i false) m.frozen⟩,
         none)
  | [], _, _ => rfl
  | nm :: rest, m, h => by
    obtain ⟨s, hs, hps⟩ := h nm (List.mem_cons_self nm rest)
    obtain ⟨a, t, hat⟩ : ∃ a t, s.paramIdxs = a :: t := by
      cases hcase : s.paramIdxs with
      | nil => exact absurd hcase hps
      | cons a t => exact ⟨a, t, rfl⟩
    have hmin : s.paramIdxs.min? = some (t.foldl min a) := by rw [hat]; rfl
    have hf : ((findSource m nm).bind (fun u => u.paramIdxs.min?)) =
        some (t.foldl min a) := by rw [hs, Option.some_bind, hmin]
    have htar : thawTargets m (nm :: rest) =
        t.foldl min a :: thawTargets m rest := by
      simp [thawTargets, List.filterMap_cons, hf]
    have ih := thawLoop_ok rest (m.thaw (t.foldl min a))
      (fun nm2 h2 => h nm2 (List.mem_cons_of_mem nm h2))
    simp only [thawLoop, hs, hmin]
    rw [ih, htar, List.foldl_cons]
    rfl

theorem thawLoop_fail :
    ∀ (pre : List String) (m : Model) (missing : String) (post : List String),
      (∀ nm ∈ pre, ∃ s, findSource m nm = some s ∧ s.paramIdxs ≠ []) →
      findSource m missing = none →
      thawLoop m (pre ++ missing :: post) =
        (⟨m.sources,
          (thawTargets m pre).foldl (fun acc i => acc.set i false) m.frozen⟩,
         some (Err.notFound missing))
  | [], m, missing, post, _, hmiss => by
    simp only [List.nil_append, thawLoop, hmiss]
    rfl
  | nm :: pre, m, missing, post, h, hmiss => by
    obtain ⟨s, hs, hps⟩ := h nm (List.mem_cons_self nm pre)
    obtain ⟨a, t, hat⟩ : ∃ a t, s.paramIdxs = a :: t := by
      cases hcase : s.paramIdxs with
      | nil => exact absurd hcase hps
      | cons a t => exact ⟨a, t, rfl⟩
    have hmin : s.paramIdxs.min? = some (t.foldl min a) := by rw [hat]; rfl
    have hf : ((findSource m nm).bind (fun u => u.paramIdxs.min?)) =
        some (t.foldl min a) := by rw [hs, Option.some_bind, hmin]
    have htar : thawTargets m (nm :: pre) =
        t.foldl min a :: thawTargets m pre := by
      simp [thawTargets, List.filterMap_cons, hf]
    have ih := thawLoop_fail pre (m.thaw (t.foldl min a)) missing post
      (fun nm2 h2 => h nm2 (List.mem_cons_of_mem nm h2)) hmiss
    rw [List.cons_append]
    simp only [thawLoop, hs, hmin]
    rw [ih, htar, List.foldl_cons]
    rfl

theorem thawLoop_state_sources :
    ∀ (names : List String) (m : Model),
      ((thawLoop m names).1).sources = m.sources
  | [], _ => rfl
  | nm :: rest, m => by
    cases hs : findSource m nm with
    | none => simp [thawLoop, hs]
    | some s =>
      cases hmin : s.paramIdxs.min? with
      | none => simp [thawLoop, hs, hmin]
      | some i =>
        simp only [thawLoop, hs, hmin]
        exact thawLoop_state_sources rest (m.thaw i)

theorem thawLoop_state_frozen_length :
    ∀ (names : List String) (m : Model),
      ((thawLoop m names).1).frozen.length = m.frozen.length
  | [], _ => rfl
  | nm :: rest, m => by
    cases hs : findSource m nm with
    | none => simp [thawLoop, hs]
    | some s =>
      cases hmin : s.paramIdxs.min? with
      | none => simp [thawLoop, hs, hmin]
      | some i =>
        simp only [thawLoop, hs, hmin]
        rw [thawLoop_state_frozen_length rest (m.thaw i)]
        exact List.length_set m.frozen i false

theorem ParamChange_state_sources (like : Model) (sr : List String)
    (change : String) : ((ParamChange like sr change).1).sources = like.sources := by
  unfold ParamChange
  by_cases hsr : sr.length = 0
  · simp [hsr]
  · by_cases hch : strLower change = "thaw"
    · simp only [hsr, if_false, hch, if_true]
      rw [thawLoop_state_sources, freezeAll_eq]
    · simp only [hsr, if_false, hch, if_true]
      rw [freezeAll_eq]

theorem ParamChange_state_frozen_length (like : Model) (sr : List String)
    (change : String) :
    ((ParamChange like sr change).1).frozen.length = like.frozen.length := by
  unfold ParamChange
  by_cases hsr : sr.length = 0
  · simp [hsr]
  · by_cases hch : strLower change = "thaw"
    · simp only [hsr, if_false, hch, if_true]
      rw [thawLoop_state_frozen_length, freezeAll_eq]
      exact List.length_replicate _ _
    · simp only [hsr, if_false, hch, if_true]
      rw [freezeAll_eq]
      exact List.length_replicate _ _

theorem freezeAll_congr {m1 m2 : Model} (hs : m1.sources = m2.sources)
    (hl : m1.frozen.length = m2.frozen.length) : freezeAll m1 = freezeAll m2 := by
  rw [freezeAll_eq, freezeAll_eq, hs, hl]

theorem ParamChange_thaw_ok (like : Model) (S : List String) (hne : ¬ S.length = 0)
    (hfind : ∀ nm ∈ S, ∃ s, findSource like nm = some s ∧ s.paramIdxs ≠ []) :
    ParamChange like S "thaw" =
      (⟨like.sources,
        (thawTargets like S).foldl (fun acc i => acc.set i false)
          (List.replicate like.frozen.length true)⟩,
       none) := by
  unfold ParamChange
  rw [if_neg hne]
  simp only [freezeAll_eq]
  rw [if_pos (by decide : strLower "thaw" = "thaw")]
  exact thawLoop_ok S ⟨like.sources, List.replicate like.frozen.length true⟩ hfind

theorem ParamChange_thaw_fail (like : Model) (pre : List String) (missing : String)
    (post : List String)
    (hfind : ∀ nm ∈ pre, ∃ s, findSource like nm = some s ∧ s.paramIdxs ≠ [])
    (hmiss : findSource like missing = none) :
    ParamChange like (pre ++ missing :: post) "thaw" =
      (⟨like.sources,
        (thawTargets like pre).foldl (fun acc i => acc.set i false)
          (List.replicate like.frozen.length true)⟩,
       some (Err.notFound missing)) := by
  unfold ParamChange
  rw [if_neg (by simp)]
  simp only [freezeAll_eq]
  rw [if_pos (by decide : strLower "thaw" = "thaw")]
  exact thawLoop_fail pre ⟨like.sources, List.replicate like.frozen.length true⟩
    missing post hfind hmiss

theorem ParamChange_congr {m1 m2 : Model} (sr : List String) (change : String)
    (h1 : m1.sources = m2.sources) (h2 : m1.frozen.length = m2.frozen.length)
    (hsr : ¬ sr.length = 0) :
    ParamChange m1 sr change = ParamChange m2 sr change := by
  unfold ParamChange
  rw [if_neg hsr, if_neg hsr, freezeAll_congr h1 h2]

theorem ParamChange_idem (like : Model) (sr : List String) (change : String) :
    ParamChange (ParamChange like sr change).1 sr change =
      ParamChange like sr change := by
  by_cases hsr : sr.length = 0
  · have h1 : ParamChange like sr change =
        (like, some (Err.invalidArgument "No source specified")) := by
      unfold ParamChange
      rw [if_pos hsr]
    rw [h1]
    exact h1
  · exact ParamChange_congr sr change
      (ParamChange_state_sources like sr change)
      (ParamChange_state_frozen_length like sr change) hsr

/-! ### Characterization of the traced operations -/

theorem ParamChangeM_ok {sr : List String} {change : String} {s : St} {m : Model}
    (h : ParamChange s.model sr change = (m, none)) :
    ParamChangeM sr change s =
      (⟨m, s.trace ++ [Event.activate sr]⟩, Except.ok ()) := by
  unfold ParamChangeM
  rw [h]

theorem ParamChangeM_err {sr : List String} {change : String} {s : St} {m : Model}
    {e : Err} (h : ParamChange s.model sr change = (m, some e)) :
    ParamChangeM sr change s =
      (⟨m, s.trace ++ [Event.activate sr]⟩, Except.error e) := by
  unfold ParamChangeM
  rw [h]

theorem doFit_ok {b : Backend} {c : FitCall} {s : St} {lg : Int} {m : Model}
    (hb : b s.model c = Except.ok (lg, m)) :
    doFit b c s = (⟨m, s.trace ++ [Event.fit s.model c]⟩, Except.ok lg) := by
  unfold doFit
  rw [hb]

theorem doFit_err {b : Backend} {c : FitCall} {s : St} {e : Err}
    (hb : b s.model c = Except.error e) :
    doFit b c s = (⟨s.model, s.trace ++ [Event.fit s.model c]⟩, Except.error e) := by
  unfold doFit
  rw [hb]

/-! ### Dispatch lemmas for `likeFitM` and `LikeFit` -/

theorem likeFitM_newminuit {fitName : String} (b : Backend) (s : St)
    (h : strLower fitName = "newminuit") : likeFitM b fitName s = doFit b preciseCall s := by
  unfold likeFitM
  rw [if_pos h]

theorem likeFitM_minuit {fitName : String} (b : Backend) (s : St)
    (h : strLower fitName = "minuit") : likeFitM b fitName s = doFit b minuitCall s := by
  unfold likeFitM
  rw [if_neg (by rw [h]; decide), if_pos h]

theorem likeFitM_drmnfb {fitName : String} (b : Backend) (s : St)
    (h : strLower fitName = "drmnfb") : likeFitM b fitName s = doFit b fastCall s := by
  unfold likeFitM
  rw [if_neg (by rw [h]; decide), if_neg (by rw [h]; decide), if_pos h]

theorem likeFitM_unsupported {fitName : String} (b : Backend) (s : St)
    (h1 : ¬ strLower fitName = "newminuit") (h2 : ¬ strLower fitName = "minuit")
    (h3 : ¬ strLower fitName = "drmnfb") :
    likeFitM b fitName s =
      (s, Except.error (Err.unsupportedStrategy
        "Improper optimizer. Use NewMinuit, Minuit, or DRMNFB")) := by
  unfold likeFitM
  rw [if_neg h1, if_neg h2, if_neg h3]

theorem LikeFit_delegates {b : Backend} {like : Model} {fitName : String}
    {c : FitCall} (h : likeFitM b fitName ⟨like, []⟩ = doFit b c ⟨like, []⟩) :
    LikeFit b like fitName = b like c := by
  unfold LikeFit
  rw [h]
  unfold doFit
  cases hb : b like c with
  | ok p =>
    cases p with
    | mk lg m => rfl
  | error e => rfl

theorem LikeFit_newminuit {fitName : String} (b : Backend) (like : Model)
    (h : strLower fitName = "newminuit") : LikeFit b like fitName = b like preciseCall :=
  LikeFit_delegates (likeFitM_newminuit b ⟨like, []⟩ h)

theorem LikeFit_minuit {fitName : String} (b : Backend) (like : Model)
    (h : strLower fitName = "minuit") : LikeFit b like fitName = b like minuitCall :=
  LikeFit_delegates (likeFitM_minuit b ⟨like, []⟩ h)

theorem LikeFit_drmnfb {fitName : String} (b : Backend) (like : Model)
    (h : strLower fitName = "drmnfb") : LikeFit b like fitName = b like fastCall :=
  LikeFit_delegates (likeFitM_drmnfb b ⟨like, []⟩ h)

theorem LikeFit_unsupported {fitName : String} (b : Backend) (like : Model)
    (h1 : ¬ strLower fitName = "newminuit") (h2 : ¬ strLower fitName = "minuit")
    (h3 : ¬ strLower fitName = "drmnfb") :
    LikeFit b like fitName =
      Except.error (Err.unsupportedStrategy
        "Improper optimizer. Use NewMinuit, Minuit, or DRMNFB") := by
  unfold LikeFit
  rw [likeFitM_unsupported b ⟨like, []⟩ h1 h2 h3]

/-! ### The thaw targets of a call -/

theorem exists_min?_of_ne_nil {l : List Nat} (h : l ≠ []) :
    ∃ i, l.min? = some i ∧ i ∈ l := by
  cases l with
  | nil => exact absurd rfl h
  | cons a t =>
    exact ⟨t.foldl min a, rfl, List.min?_mem (fun x y => min_choice x y) rfl⟩

theorem findSource_name_mem {m : Model} {nm : String} {s : Source}
    (h : findSource m nm = some s) : s.name = nm ∧ s ∈ m.sources := by
  have h2 : m.sources.find? (fun u => u.name == nm) = some s := h
  have h3 := List.find?_some h2
  simp only [beq_iff_eq] at h3
  exact ⟨h3, List.mem_of_find?_eq_some h2⟩

theorem mem_thawTargets {m : Model} {names : List String} {j : Nat} :
    j ∈ thawTargets m names ↔
      ∃ nm ∈ names, ∃ s, findSource m nm = some s ∧ s.paramIdxs.min? = some j := by
  simp [thawTargets, List.mem_filterMap, Option.bind_eq_some]

theorem resolve_step {m : Model} {nm : String}
    (h : ∃ s, findSource m nm = some s ∧ s.paramIdxs ≠ []) :
    ∃ s i, findSource m nm = some s ∧ s.paramIdxs.min? = some i ∧
      i ∈ s.paramIdxs ∧
      ((findSource m nm).bind fun u => u.paramIdxs.min?) = some i := by
  obtain ⟨s, hs, hps⟩ := h
  obtain ⟨i, hmin, hmem⟩ := exists_min?_of_ne_nil hps
  exact ⟨s, i, hs, hmin, hmem, by rw [hs, Option.some_bind, hmin]⟩

theorem thawTargets_length :
    ∀ (names : List String) (m : Model),
      (∀ nm ∈ names, ∃ s, findSource m nm = some s ∧ s.paramIdxs ≠ []) →
      (thawTargets m names).length = names.length
  | [], _, _ => rfl
  | nm :: rest, m, h => by
    obtain ⟨s, i, _, _, _, hf⟩ := resolve_step (h nm (List.mem_cons_self nm rest))
    have htar : thawTargets m (nm :: rest) = i :: thawTargets m rest := by
      simp [thawTargets, List.filterMap_cons, hf]
    rw [htar, List.length_cons, List.length_cons,
      thawTargets_length rest m (fun x hx => h x (List.mem_cons_of_mem nm hx))]

theorem thawTargets_nodup :
    ∀ (names : List String) (m : Model),
      names.Nodup →
      (∀ nm ∈ names, ∃ s, findSource m nm = some s ∧ s.paramIdxs ≠ []) →
      (∀ s ∈ m.sources, ∀ t ∈ m.sources, s.name ≠ t.name →
        ∀ i ∈ s.paramIdxs, i ∉ t.paramIdxs) →
      (thawTargets m names).Nodup
  | [], _, _, _, _ => List.nodup_nil
  | nm :: rest, m, hnd, hall, hdisj => by
    obtain ⟨s, i, hs, _, hmem, hf⟩ :=
      resolve_step (hall nm (List.mem_cons_self nm rest))
    have htar : thawTargets m (nm :: rest) = i :: thawTargets m rest := by
      simp [thawTargets, List.filterMap_cons, hf]
    rw [htar, List.nodup_cons]
    refine ⟨?_, thawTargets_nodup rest m (List.nodup_cons.mp hnd).2
      (fun x hx => hall x (List.mem_cons_of_mem nm hx)) hdisj⟩
    intro hin
    obtain ⟨nm2, hnm2, s2, hs2, hmin2⟩ := mem_thawTargets.mp hin
    have hne : nm ≠ nm2 := fun hc => (List.nodup_cons.mp hnd).1 (hc ▸ hnm2)
    have h1 := findSource_name_mem hs
    have h2 := findSource_name_mem hs2
    have hnames : s.name ≠ s2.name := by rw [h1.1, h2.1]; exact hne
    have hmem2 : i ∈ s2.paramIdxs := List.min?_mem (fun x y => min_choice x y) hmin2
    exact hdisj s h1.2 s2 h2.2 hnames i hmem hmem2

theorem thawTargets_lt {m : Model} {names : List String}
    (hrange : ∀ s ∈ m.sources, ∀ i ∈ s.paramIdxs, i < m.frozen.length) :
    ∀ j ∈ thawTargets m names, j < m.frozen.length := by
  intro j hj
  obtain ⟨nm, _, s, hs, hmin⟩ := mem_thawTargets.mp hj
  exact hrange s (findSource_name_mem hs).2 j
    (List.min?_mem (fun x y => min_choice x y) hmin)

/-- C2: for a non-empty source set S whose named sources all exist in the
model and have at least one parameter (in a well-formed model: parameter
indices in range and not shared between differently named sources),
`ParamChange` with `change = "thaw"` succeeds, and afterwards a parameter is
thawed exactly when it is the lowest-indexed parameter of one of the sources
of S; there are exactly `S.length` thawed parameters, everything else is
frozen. -/
theorem c2_setActiveSources (like : Model) (S : List String)
    (hne : S ≠ [])
    (hnodup : S.Nodup)
    (hfind : ∀ nm ∈ S, ∃ s, findSource like nm = some s ∧ s.paramIdxs ≠ [])
    (hrange : ∀ s ∈ like.sources, ∀ i ∈ s.paramIdxs, i < like.frozen.length)
    (hdisj : ∀ s ∈ like.sources, ∀ t ∈ like.sources, s.name ≠ t.name →
      ∀ i ∈ s.paramIdxs, i ∉ t.paramIdxs) :
    ∃ m', ParamChange like S "thaw" = (m', none) ∧
      m'.sources = like.sources ∧
      m'.frozen.length = like.frozen.length ∧
      (∀ j, j < like.frozen.length →
        (m'.frozen[j]? = some false ↔ j ∈ thawTargets like S)) ∧
      m'.frozen.count false = S.length := by
  have hlen : ¬ S.length = 0 := fun hc => hne (List.length_eq_zero.mp hc)
  refine ⟨_, ParamChange_thaw_ok like S hlen hfind, rfl, ?_, ?_, ?_⟩
  · rw [foldl_set_length, List.length_replicate]
  · intro j hj
    rw [foldl_set_getElem? false _ _ j (by simpa using hj)]
    by_cases hmem : j ∈ thawTargets like S
    · simp [hmem]
    · simp only [hmem, if_false]
      rw [List.getElem?_replicate, if_pos hj]
      simp [hmem]
  · rw [count_foldl_set_false _ _
      (thawTargets_nodup S like hnodup hfind hdisj)
      (fun i hi => by
        rw [List.getElem?_replicate, if_pos (thawTargets_lt hrange i hi)]),
      List.count_eq_zero.mpr (by simp), thawTargets_length S like hfind]
    simp

/-- Witness for C2 at a concrete two-source model. -/
theorem c2_setActiveSources_witness :
    ∃ m', ParamChange ⟨[⟨"p1", [0, 1]⟩, ⟨"HI", [2, 3]⟩],
        [false, false, false, false]⟩ ["p1", "HI"] "thaw" = (m', none) ∧
      m'.sources = [⟨"p1", [0, 1]⟩, ⟨"HI", [2, 3]⟩] ∧
      m'.frozen.length = 4 ∧
      (∀ j, j < 4 →
        (m'.frozen[j]? = some false ↔
          j ∈ thawTargets ⟨[⟨"p1", [0, 1]⟩, ⟨"HI", [2, 3]⟩],
            [false, false, false, false]⟩ ["p1", "HI"])) ∧
      m'.frozen.count false = 2 :=
  c2_setActiveSources
    ⟨[⟨"p1", [0, 1]⟩, ⟨"HI", [2, 3]⟩], [false, false, false, false]⟩
    ["p1", "HI"] (by decide) (by decide)
    (by
      intro nm hnm
      rcases List.mem_cons.mp hnm with h | h
      · subst h
        exact ⟨⟨"p1", [0, 1]⟩, by decide, by decide⟩
      · rcases List.mem_cons.mp h with h2 | h2
        · subst h2
          exact ⟨⟨"HI", [2, 3]⟩, by decide, by decide⟩
        · simp at h2)
    (by decide) (by decide)

/-- C7: `setActiveSources` is idempotent: for a non-empty source set S whose
sources exist in the model, running `ParamChange like S "thaw"` a second
time from the state the first call left behind gives exactly the same
frozen/thawed state (and the same outcome) as the single call. -/
theorem c7_setActiveSources_idempotent (like : Model) (S : List String)
    (_hne : S ≠ [])
    (_hex : ∀ nm ∈ S, ∃ s, findSource like nm = some s) :
    ParamChange (ParamChange like S "thaw").1 S "thaw" =
      ParamChange like S "thaw" :=
  ParamChange_idem like S "thaw"

/-- Witness for C7 at a concrete model. -/
theorem c7_setActiveSources_idempotent_witness :
    ParamChange (ParamChange mW ["p1", "HI"] "thaw").1 ["p1", "HI"] "thaw" =
      ParamChange mW ["p1", "HI"] "thaw" :=
  c7_setActiveSources_idempotent mW ["p1", "HI"] (by decide)
    (by
      intro nm hnm
      rcases List.mem_cons.mp hnm with h | h
      · subst h
        exact ⟨⟨"p1", [0, 1]⟩, by decide⟩
      · rcases List.mem_cons.mp h with h2 | h2
        · subst h2
          exact ⟨⟨"HI", [2, 3]⟩, by decide⟩
        · simp at h2)

/-- C9: with any `change` value that does not lower-case to `"thaw"` —
including the Python default `"freeze"`, `"Thaw!"` or the empty string —
`ParamChange` on a non-empty source list raises nothing, freezes every
parameter, thaws none, and hands the model back; the `change` argument is
never validated. -/
theorem c9_nonthaw_freezes_everything (like : Model) (sr : List String)
    (change : String) (hne : sr ≠ []) (hch : ¬ strLower change = "thaw") :
    ParamChange like sr change =
      (⟨like.sources, List.replicate like.frozen.length true⟩, none) := by
  unfold ParamChange
  rw [if_neg (fun hc => hne (List.length_eq_zero.mp hc))]
  simp only [freezeAll_eq]
  rw [if_neg hch]

/-- Witness for C9: the default `"freeze"`, the unrecognized `"Thaw!"` and
the empty string all behave alike, even with a source list whose second name
does not exist in the model. -/
theorem c9_nonthaw_freezes_everything_witness :
    ParamChange mW ["p1", "ghost"] "freeze" =
      (⟨mW.sources, List.replicate mW.frozen.length true⟩, none) ∧
    ParamChange mW ["p1", "ghost"] "Thaw!" =
      (⟨mW.sources, List.replicate mW.frozen.length true⟩, none) ∧
    ParamChange mW ["p1", "ghost"] "" =
      (⟨mW.sources, List.replicate mW.frozen.length true⟩, none) :=
  ⟨c9_nonthaw_freezes_everything mW ["p1", "ghost"] "freeze" (by decide) (by decide),
   c9_nonthaw_freezes_everything mW ["p1", "ghost"] "Thaw!" (by decide) (by decide),
   c9_nonthaw_freezes_everything mW ["p1", "ghost"] "" (by decide) (by decide)⟩

/-- C10 counterexample: with sources `a`, `b` (one parameter each, both
thawed before the call) and the request `["a", "ghost"]`, the call fails
with the not-found error, but the parameter of `a` thawed before the failure
stays thawed: the final frozen state is `[false, true]`, not all-frozen as
the claim asserts. -/
theorem c10_all_frozen_counterexample :
    (ParamChange mC10 ["a", "ghost"] "thaw").2 = some (Err.notFound "ghost") ∧
    (ParamChange mC10 ["a", "ghost"] "thaw").1.frozen = [false, true] ∧
    (ParamChange mC10 ["a", "ghost"] "thaw").1.frozen ≠
      List.replicate mC10.frozen.length true :=
  ⟨by decide, by decide, by decide⟩

/-- C10 (amended): `ParamChange` with `change = "thaw"` is not atomic: when
the source list is `pre ++ missing :: post` with every name of `pre`
resolvable (and owning parameters) and `missing` absent from the model, the
call fails with the not-found error only after the freeze-all step and the
thaws for `pre` have mutated the model: at failure every parameter is
frozen except the lowest-indexed parameter of each source of `pre`, which
stays thawed, so the pre-call frozen/thawed state is not restored. -/
theorem c10_partial_thaw_on_failure (like : Model) (pre : List String)
    (missing : String) (post : List String)
    (hfind : ∀ nm ∈ pre, ∃ s, findSource like nm = some s ∧ s.paramIdxs ≠ [])
    (hmiss : findSource like missing = none) :
    ParamChange like (pre ++ missing :: post) "thaw" =
      (⟨like.sources,
        (thawTargets like pre).foldl (fun acc i => acc.set i false)
          (List.replicate like.frozen.length true)⟩,
       some (Err.notFound missing)) ∧
    (∀ j, j < like.frozen.length →
      (((thawTargets like pre).foldl (fun acc i => acc.set i false)
          (List.replicate like.frozen.length true))[j]? = some false ↔
        j ∈ thawTargets like pre)) := by
  refine ⟨ParamChange_thaw_fail like pre missing post hfind hmiss, ?_⟩
  intro j hj
  rw [foldl_set_getElem? false _ _ j (by simpa using hj)]
  by_cases hmem : j ∈ thawTargets like pre
  · simp [hmem]
  · simp only [hmem, if_false]
    rw [List.getElem?_replicate, if_pos hj]
    simp [hmem]

/-- Witness for the amended C10 at the counterexample model. -/
theorem c10_partial_thaw_on_failure_witness :
    ParamChange mC10 (["a"] ++ "ghost" :: []) "thaw" =
      (⟨mC10.sources,
        (thawTargets mC10 ["a"]).foldl (fun acc i => acc.set i false)
          (List.replicate mC10.frozen.length true)⟩,
       some (Err.notFound "ghost")) ∧
    (∀ j, j < mC10.frozen.length →
      (((thawTargets mC10 ["a"]).foldl (fun acc i => acc.set i false)
          (List.replicate mC10.frozen.length true))[j]? = some false ↔
        j ∈ thawTargets mC10 ["a"])) :=
  c10_partial_thaw_on_failure mC10 ["a"] "ghost" []
    (by
      intro nm hnm
      rcases List.mem_cons.mp hnm with h | h
      · subst h
        exact ⟨⟨"a", [0]⟩, by decide, by decide⟩
      · simp at h)
    (by decide)

/-- C5: the Optimizer Invoker matches strategy names case-insensitively:
any name whose lower-casing is not one of the three recognized ones fails
with the unsupported-strategy error before the backend is touched, and every
case variant of a recognized name delegates directly to the backend. -/
theorem c5_likeFit_dispatch (b : Backend) (like : Model) (fitName : String) :
    (¬ strLower fitName = "newminuit" → ¬ strLower fitName = "minuit" →
      ¬ strLower fitName = "drmnfb" →
      LikeFit b like fitName =
        Except.error (Err.unsupportedStrategy
          "Improper optimizer. Use NewMinuit, Minuit, or DRMNFB")) ∧
    (strLower fitName = "newminuit" → LikeFit b like fitName = b like preciseCall) ∧
    (strLower fitName = "minuit" → LikeFit b like fitName = b like minuitCall) ∧
    (strLower fitName = "drmnfb" → LikeFit b like fitName = b like fastCall) :=
  ⟨fun h1 h2 h3 => LikeFit_unsupported b like h1 h2 h3,
   fun h => LikeFit_newminuit b like h,
   fun h => LikeFit_minuit b like h,
   fun h => LikeFit_drmnfb b like h⟩

/-- Witness for C5: odd-cased recognized names delegate, an unrecognized
name errors. -/
theorem c5_likeFit_dispatch_witness :
    LikeFit okBackend mW "NEWminuit" = okBackend mW preciseCall ∧
    LikeFit okBackend mW "MINUIT" = okBackend mW minuitCall ∧
    LikeFit okBackend mW "DrMnFb" = okBackend mW fastCall ∧
    LikeFit okBackend mW "L-BFGS" =
      Except.error (Err.unsupportedStrategy
        "Improper optimizer. Use NewMinuit, Minuit, or DRMNFB") :=
  ⟨(c5_likeFit_dispatch okBackend mW "NEWminuit").2.1 (by decide),
   (c5_likeFit_dispatch okBackend mW "MINUIT").2.2.1 (by decide),
   (c5_likeFit_dispatch okBackend mW "DrMnFb").2.2.2 (by decide),
   (c5_likeFit_dispatch okBackend mW "L-BFGS").1
     (by decide) (by decide) (by decide)⟩

/-- C6: which backend invocation the Optimizer Invoker makes is determined
solely by the selected strategy: either precise strategy (NewMinuit or
Minuit) requests the covariance matrix, the fast strategy (DRMNFB) does
not — for every backend and every model. -/
theorem c6_covariance_by_strategy (b : Backend) (like : Model) (fitName : String) :
    ((strLower fitName = "newminuit" ∨ strLower fitName = "minuit") →
      ∃ c : FitCall, LikeFit b like fitName = b like c ∧ c.covar = true) ∧
    (strLower fitName = "drmnfb" →
      ∃ c : FitCall, LikeFit b like fitName = b like c ∧ c.covar = false) :=
  ⟨fun h => h.elim
      (fun h1 => ⟨preciseCall, LikeFit_newminuit b like h1, rfl⟩)
      (fun h2 => ⟨minuitCall, LikeFit_minuit b like h2, rfl⟩),
   fun h => ⟨fastCall, LikeFit_drmnfb b like h, rfl⟩⟩

/-- Witness for C6 at the concrete strategy strings of the scheduler. -/
theorem c6_covariance_by_strategy_witness :
    (∃ c : FitCall, LikeFit okBackend mW "NewMinuit" = okBackend mW c ∧
      c.covar = true) ∧
    (∃ c : FitCall, LikeFit okBackend mW "DRMNFB" = okBackend mW c ∧
      c.covar = false) :=
  ⟨(c6_covariance_by_strategy okBackend mW "NewMinuit").1 (Or.inl (by decide)),
   (c6_covariance_by_strategy okBackend mW "DRMNFB").2 (by decide)⟩

/-! ### The scheduler: stage order and fail-fast behaviour -/

theorem likeFitM_DRMNFB (b : Backend) (s : St) :
    likeFitM b "DRMNFB" s = doFit b fastCall s :=
  likeFitM_drmnfb b s (by decide)

theorem likeFitM_NewMinuit (b : Backend) (s : St) :
    likeFitM b "NewMinuit" s = doFit b preciseCall s :=
  likeFitM_newminuit b s (by decide)

/-- C1: a successful scheduler run has performed exactly the five
activation+fit stages in the fixed order point(fast), diffuse(fast),
diffuse(precise, with the diffuse set still active from stage 2),
point(fast), diffuse(precise), and the log-likelihood it returns is exactly
the result the backend reported for the fifth fit. -/
theorem c1_iterateFit_five_stages (b : Backend) (PS diff_src : List String)
    (m : Model) (lg : Int)
    (hok : (IterateFit b PS diff_src ⟨m, []⟩).2 = Except.ok lg) :
    ∃ m1 m2 m3 m4 m5 : Model,
      (IterateFit b PS diff_src ⟨m, []⟩).1.trace =
        [Event.activate PS, Event.fit m1 fastCall,
         Event.activate diff_src, Event.fit m2 fastCall,
         Event.fit m3 preciseCall,
         Event.activate PS, Event.fit m4 fastCall,
         Event.activate diff_src, Event.fit m5 preciseCall] ∧
      b m5 preciseCall =
        Except.ok (lg, (IterateFit b PS diff_src ⟨m, []⟩).1.model) := by
  rcases h1 : ParamChange m PS "thaw" with ⟨n1, _ | e⟩
  case mk.some =>
    simp [IterateFit, ParamChangeM, h1] at hok
  case mk.none =>
  rcases h2 : b n1 fastCall with e | ⟨lg1, n2⟩
  case error =>
    simp [IterateFit, ParamChangeM, doFit, likeFitM_DRMNFB, h1, h2] at hok
  case ok.mk =>
  rcases h3 : ParamChange n2 diff_src "thaw" with ⟨n3, _ | e⟩
  case mk.some =>
    simp [IterateFit, ParamChangeM, doFit, likeFitM_DRMNFB, h1, h2, h3] at hok
  case mk.none =>
  rcases h4 : b n3 fastCall with e | ⟨lg2, n4⟩
  case error =>
    simp [IterateFit, ParamChangeM, doFit, likeFitM_DRMNFB, h1, h2, h3, h4] at hok
  case ok.mk =>
  rcases h5 : b n4 preciseCall with e | ⟨lg3, n5⟩
  case error =>
    simp [IterateFit, ParamChangeM, doFit, likeFitM_DRMNFB, likeFitM_NewMinuit,
      h1, h2, h3, h4, h5] at hok
  case ok.mk =>
  rcases h6 : ParamChange n5 PS "thaw" with ⟨n6, _ | e⟩
  case mk.some =>
    simp [IterateFit, ParamChangeM, doFit, likeFitM_DRMNFB, likeFitM_NewMinuit,
      h1, h2, h3, h4, h5, h6] at hok
  case mk.none =>
  rcases h7 : b n6 fastCall with e | ⟨lg4, n7⟩
  case error =>
    simp [IterateFit, ParamChangeM, doFit, likeFitM_DRMNFB, likeFitM_NewMinuit,
      h1, h2, h3, h4, h5, h6, h7] at hok
  case ok.mk =>
  rcases h8 : ParamChange n7 diff_src "thaw" with ⟨n8, _ | e⟩
  case mk.some =>
    simp [IterateFit, ParamChangeM, doFit, likeFitM_DRMNFB, likeFitM_NewMinuit,
      h1, h2, h3, h4, h5, h6, h7, h8] at hok
  case mk.none =>
  rcases h9 : b n8 preciseCall with e | ⟨lg5, n9⟩
  case error =>
    simp [IterateFit, ParamChangeM, doFit, likeFitM_DRMNFB, likeFitM_NewMinuit,
      h1, h2, h3, h4, h5, h6, h7, h8, h9] at hok
  case ok.mk =>
  have hred : IterateFit b PS diff_src ⟨m, []⟩ =
      (⟨n9, [Event.activate PS, Event.fit n1 fastCall,
        Event.activate diff_src, Event.fit n3 fastCall,
        Event.fit n4 preciseCall,
        Event.activate PS, Event.fit n6 fastCall,
        Event.activate diff_src, Event.fit n8 preciseCall]⟩,
       Except.ok lg5) := by
    simp [IterateFit, ParamChangeM, doFit, likeFitM_DRMNFB, likeFitM_NewMinuit,
      h1, h2, h3, h4, h5, h6, h7, h8, h9]
  rw [hred] at hok
  simp at hok
  subst hok
  exact ⟨n1, n3, n4, n6, n8, by rw [hred], by rw [hred]; exact h9⟩

theorem append_singleton_inj {α : Type} {l1 l2 : List α} {x y : α}
    (h : l1 ++ [x] = l2 ++ [y]) : x = y := by
  have h1 := congrArg List.getLast? h
  rw [List.getLast?_concat, List.getLast?_concat] at h1
  exact Option.some.inj h1

theorem last_event_fit {tr pre : List Event} {mdl2 : Model} {c2 : FitCall}
    {mdl : Model} {c : FitCall}
    (h : tr ++ [Event.fit mdl2 c2] = pre ++ [Event.fit mdl c]) :
    mdl2 = mdl ∧ c2 = c := by
  have h1 := append_singleton_inj h
  injection h1 with hm hc
  exact ⟨hm, hc⟩

theorem last_event_not_fit {tr pre : List Event} {sr : List String}
    {mdl : Model} {c : FitCall}
    (h : tr ++ [Event.activate sr] = pre ++ [Event.fit mdl c]) : False :=
  Event.noConfusion (append_singleton_inj h)

/-- C8: a backend fit failure is terminal for the scheduler invocation and
is never caught or retried: the fit invocations of any run form a prefix of
the five-stage plan (so no stage runs twice and none runs out of order), a
successful run performs exactly the five planned fits, and when the run
errors with its trace ending in a fit invocation, that very invocation
failed with exactly the returned error — nothing ran after it. -/
theorem c8_backend_failure_fail_fast (b : Backend) (PS diff_src : List String)
    (m : Model) :
    List.IsPrefix (fitEvents (IterateFit b PS diff_src ⟨m, []⟩).1.trace)
      stagePlan ∧
    (∀ lg : Int, (IterateFit b PS diff_src ⟨m, []⟩).2 = Except.ok lg →
      fitEvents (IterateFit b PS diff_src ⟨m, []⟩).1.trace = stagePlan) ∧
    (∀ (e : Err) (pre : List Event) (mdl : Model) (c : FitCall),
      (IterateFit b PS diff_src ⟨m, []⟩).2 = Except.error e →
      (IterateFit b PS diff_src ⟨m, []⟩).1.trace = pre ++ [Event.fit mdl c] →
      b mdl c = Except.error e) := by
  rcases h1 : ParamChange m PS "thaw" with ⟨n1, _ | e1⟩
  case mk.some =>
    have hred : IterateFit b PS diff_src ⟨m, []⟩ =
        (⟨n1, [Event.activate PS]⟩, Except.error e1) := by
      simp [IterateFit, ParamChangeM, h1]
    refine ⟨?_, ?_, ?_⟩
    · rw [hred]
      exact ⟨stagePlan, rfl⟩
    · intro lg hok
      rw [hred] at hok
      simp at hok
    · intro e' pre mdl c _ htr
      rw [hred] at htr
      exact absurd (show ([] : List Event) ++ [Event.activate PS] =
        pre ++ [Event.fit mdl c] by simpa using htr) (fun h => last_event_not_fit h)
  case mk.none =>
  rcases h2 : b n1 fastCall with e2 | ⟨lg1, n2⟩
  case error =>
    have hred : IterateFit b PS diff_src ⟨m, []⟩ =
        (⟨n1, [Event.activate PS, Event.fit n1 fastCall]⟩, Except.error e2) := by
      simp [IterateFit, ParamChangeM, doFit, likeFitM_DRMNFB, h1, h2]
    refine ⟨?_, ?_, ?_⟩
    · rw [hred]
      exact ⟨[fastCall, preciseCall, fastCall, preciseCall], rfl⟩
    · intro lg hok
      rw [hred] at hok
      simp at hok
    · intro e' pre mdl c he htr
      rw [hred] at he htr
      obtain ⟨hm, hc⟩ := last_event_fit (show [Event.activate PS] ++
        [Event.fit n1 fastCall] = pre ++ [Event.fit mdl c] by simpa using htr)
      subst hm
      subst hc
      simp only [Except.error.injEq] at he
      rw [h2, he]
  case ok.mk =>
  rcases h3 : ParamChange n2 diff_src "thaw" with ⟨n3, _ | e3⟩
  case mk.some =>
    have hred : IterateFit b PS diff_src ⟨m, []⟩ =
        (⟨n3, [Event.activate PS, Event.fit n1 fastCall,
          Event.activate diff_src]⟩, Except.error e3) := by
      simp [IterateFit, ParamChangeM, doFit, likeFitM_DRMNFB, h1, h2, h3]
    refine ⟨?_, ?_, ?_⟩
    · rw [hred]
      exact ⟨[fastCall, preciseCall, fastCall, preciseCall], rfl⟩
    · intro lg hok
      rw [hred] at hok
      simp at hok
    · intro e' pre mdl c _ htr
      rw [hred] at htr
      exact absurd (show [Event.activate PS, Event.fit n1 fastCall] ++
        [Event.activate diff_src] = pre ++ [Event.fit mdl c] by simpa using htr)
        (fun h => last_event_not_fit h)
  case mk.none =>
  rcases h4 : b n3 fastCall with e4 | ⟨lg2, n4⟩
  case error =>
    have hred : IterateFit b PS diff_src ⟨m, []⟩ =
        (⟨n3, [Event.activate PS, Event.fit n1 fastCall,
          Event.activate diff_src, Event.fit n3 fastCall]⟩, Except.error e4) := by
      simp [IterateFit, ParamChangeM, doFit, likeFitM_DRMNFB, h1, h2, h3, h4]
    refine ⟨?_, ?_, ?_⟩
    · rw [hred]
      exact ⟨[preciseCall, fastCall, preciseCall], rfl⟩
    · intro lg hok
      rw [hred] at hok
      simp at hok
    · intro e' pre mdl c he htr
      rw [hred] at he htr
      obtain ⟨hm, hc⟩ := last_event_fit (show [Event.activate PS,
        Event.fit n1 fastCall, Event.activate diff_src] ++ [Event.fit n3 fastCall] =
        pre ++ [Event.fit mdl c] by simpa using htr)
      subst hm
      subst hc
      simp only [Except.error.injEq] at he
      rw [h4, he]
  case ok.mk =>
  rcases h5 : b n4 preciseCall with e5 | ⟨lg3, n5⟩
  case error =>
    have hred : IterateFit b PS diff_src ⟨m, []⟩ =
        (⟨n4, [Event.activate PS, Event.fit n1 fastCall,
          Event.activate diff_src, Event.fit n3 fastCall,
          Event.fit n4 preciseCall]⟩, Except.error e5) := by
      simp [IterateFit, ParamChangeM, doFit, likeFitM_DRMNFB, likeFitM_NewMinuit,
        h1, h2, h3, h4, h5]
    refine ⟨?_, ?_, ?_⟩
    · rw [hred]
      exact ⟨[fastCall, preciseCall], rfl⟩
    · intro lg hok
      rw [hred] at hok
      simp at hok
    · intro e' pre mdl c he htr
      rw [hred] at he htr
      obtain ⟨hm, hc⟩ := last_event_fit (show [Event.activate PS,
        Event.fit n1 fastCall, Event.activate diff_src, Event.fit n3 fastCall] ++
        [Event.fit n4 preciseCall] = pre ++ [Event.fit mdl c] by simpa using htr)
      subst hm
      subst hc
      simp only [Except.error.injEq] at he
      rw [h5, he]
  case ok.mk =>
  rcases h6 : ParamChange n5 PS "thaw" with ⟨n6, _ | e6⟩
  case mk.some =>
    have hred : IterateFit b PS diff_src ⟨m, []⟩ =
        (⟨n6, [Event.activate PS, Event.fit n1 fastCall,
          Event.activate diff_src, Event.fit n3 fastCall,
          Event.fit n4 preciseCall, Event.activate PS]⟩, Except.error e6) := by
      simp [IterateFit, ParamChangeM, doFit, likeFitM_DRMNFB, likeFitM_NewMinuit,
        h1, h2, h3, h4, h5, h6]
    refine ⟨?_, ?_, ?_⟩
    · rw [hred]
      exact ⟨[fastCall, preciseCall], rfl⟩
    · intro lg hok
      rw [hred] at hok
      simp at hok
    · intro e' pre mdl c _ htr
      rw [hred] at htr
      exact absurd (show [Event.activate PS, Event.fit n1 fastCall,
        Event.activate diff_src, Event.fit n3 fastCall, Event.fit n4 preciseCall] ++
        [Event.activate PS] = pre ++ [Event.fit mdl c] by simpa using htr)
        (fun h => last_event_not_fit h)
  case mk.none =>
  rcases h7 : b n6 fastCall with e7 | ⟨lg4, n7⟩
  case error =>
    have hred : IterateFit b PS diff_src ⟨m, []⟩ =
        (⟨n6, [Event.activate PS, Event.fit n1 fastCall,
          Event.activate diff_src, Event.fit n3 fastCall,
          Event.fit n4 preciseCall, Event.activate PS,
          Event.fit n6 fastCall]⟩, Except.error e7) := by
      simp [IterateFit, ParamChangeM, doFit, likeFitM_DRMNFB, likeFitM_NewMinuit,
        h1, h2, h3, h4, h5, h6, h7]
    refine ⟨?_, ?_, ?_⟩
    · rw [hred]
      exact ⟨[preciseCall], rfl⟩
    · intro lg hok
      rw [hred] at hok
      simp at hok
    · intro e' pre mdl c he htr
      rw [hred] at he htr
      obtain ⟨hm, hc⟩ := last_event_fit (show [Event.activate PS,
        Event.fit n1 fastCall, Event.activate diff_src, Event.fit n3 fastCall,
        Event.fit n4 preciseCall, Event.activate PS] ++ [Event.fit n6 fastCall] =
        pre ++ [Event.fit mdl c] by simpa using htr)
      subst hm
      subst hc
      simp only [Except.error.injEq] at he
      rw [h7, he]
  case ok.mk =>
  rcases h8 : ParamChange n7 diff_src "thaw" with ⟨n8, _ | e8⟩
  case mk.some =>
    have hred : IterateFit b PS diff_src ⟨m, []⟩ =
        (⟨n8, [Event.activate PS, Event.fit n1 fastCall,
          Event.activate diff_src, Event.fit n3 fastCall,
          Event.fit n4 preciseCall, Event.activate PS,
          Event.fit n6 fastCall, Event.activate diff_src]⟩, Except.error e8) := by
      simp [IterateFit, ParamChangeM, doFit, likeFitM_DRMNFB, likeFitM_NewMinuit,
        h1, h2, h3, h4, h5, h6, h7, h8]
    refine ⟨?_, ?_, ?_⟩
    · rw [hred]
      exact ⟨[preciseCall], rfl⟩
    · intro lg hok
      rw [hred] at hok
      simp at hok
    · intro e' pre mdl c _ htr
      rw [hred] at htr
      exact absurd (show [Event.activate PS, Event.fit n1 fastCall,
        Event.activate diff_src, Event.fit n3 fastCall, Event.fit n4 preciseCall,
        Event.activate PS, Event.fit n6 fastCall] ++ [Event.activate diff_src] =
        pre ++ [Event.fit mdl c] by simpa using htr)
        (fun h => last_event_not_fit h)
  case mk.none =>
  rcases h9 : b n8 preciseCall with e9 | ⟨lg5, n9⟩
  case error =>
    have hred : IterateFit b PS diff_src ⟨m, []⟩ =
        (⟨n8, [Event.activate PS, Event.fit n1 fastCall,
          Event.activate diff_src, Event.fit n3 fastCall,
          Event.fit n4 preciseCall, Event.activate PS,
          Event.fit n6 fastCall, Event.activate diff_src,
          Event.fit n8 preciseCall]⟩, Except.error e9) := by
      simp [IterateFit, ParamChangeM, doFit, likeFitM_DRMNFB, likeFitM_NewMinuit,
        h1, h2, h3, h4, h5, h6, h7, h8, h9]
    refine ⟨?_, ?_, ?_⟩
    · rw [hred]
      exact ⟨[], rfl⟩
    · intro lg hok
      rw [hred] at hok
      simp at hok
    · intro e' pre mdl c he htr
      rw [hred] at he htr
      obtain ⟨hm, hc⟩ := last_event_fit (show [Event.activate PS,
        Event.fit n1 fastCall, Event.activate diff_src, Event.fit n3 fastCall,
        Event.fit n4 preciseCall, Event.activate PS, Event.fit n6 fastCall,
        Event.activate diff_src] ++ [Event.fit n8 preciseCall] =
        pre ++ [Event.fit mdl c] by simpa using htr)
      subst hm
      subst hc
      simp only [Except.error.injEq] at he
      rw [h9, he]
  case ok.mk =>
  have hred : IterateFit b PS diff_src ⟨m, []⟩ =
      (⟨n9, [Event.activate PS, Event.fit n1 fastCall,
        Event.activate diff_src, Event.fit n3 fastCall,
        Event.fit n4 preciseCall, Event.activate PS,
        Event.fit n6 fastCall, Event.activate diff_src,
        Event.fit n8 preciseCall]⟩, Except.ok lg5) := by
    simp [IterateFit, ParamChangeM, doFit, likeFitM_DRMNFB, likeFitM_NewMinuit,
      h1, h2, h3, h4, h5, h6, h7, h8, h9]
  refine ⟨?_, ?_, ?_⟩
  · rw [hred]
    exact ⟨[], rfl⟩
  · intro lg _
    rw [hred]
    rfl
  · intro e' pre mdl c he _
    rw [hred] at he
    simp at he

/-- Witness for C1: a full successful run against the always-converging
backend. -/
theorem c1_iterateFit_five_stages_witness :
    ∃ m1 m2 m3 m4 m5 : Model,
      (IterateFit okBackend ["p1"] ["HI"] ⟨mW, []⟩).1.trace =
        [Event.activate ["p1"], Event.fit m1 fastCall,
         Event.activate ["HI"], Event.fit m2 fastCall,
         Event.fit m3 preciseCall,
         Event.activate ["p1"], Event.fit m4 fastCall,
         Event.activate ["HI"], Event.fit m5 preciseCall] ∧
      okBackend m5 preciseCall =
        Except.ok (7, (IterateFit okBackend ["p1"] ["HI"] ⟨mW, []⟩).1.model) :=
  c1_iterateFit_five_stages okBackend ["p1"] ["HI"] mW 7 (by decide)

/-- Witness for C8: the backend that diverges on covariance fits makes the
run fail at the third stage; the failing invocation is the last trace event
and its error is the result of the whole run. -/
theorem c8_backend_failure_fail_fast_witness :
    failPreciseBackend ⟨mW.sources, [true, true, false, true]⟩ preciseCall =
      Except.error (Err.backendFitFailure "optimizer did not converge") ∧
    List.IsPrefix
      (fitEvents (IterateFit failPreciseBackend ["p1"] ["HI"] ⟨mW, []⟩).1.trace)
      stagePlan :=
  ⟨(c8_backend_failure_fail_fast failPreciseBackend ["p1"] ["HI"] mW).2.2
      (Err.backendFitFailure "optimizer did not converge")
      [Event.activate ["p1"],
       Event.fit ⟨mW.sources, [false, true, true, true]⟩ fastCall,
       Event.activate ["HI"],
       Event.fit ⟨mW.sources, [true, true, false, true]⟩ fastCall]
      ⟨mW.sources, [true, true, false, true]⟩ preciseCall
      (by decide) (by decide),
   (c8_backend_failure_fail_fast failPreciseBackend ["p1"] ["HI"] mW).1⟩

/-- C4: activating an empty source set always raises the invalid-argument
error, whatever the model state and the `change` value; consequently a
scheduler run with an empty diffuse set that gets through stage 1 fails at
its stage-2 diffuse activation with that error, having performed exactly
one backend fit, and the cascade surfaces the failure as its error output
with no round records instead of silently succeeding. -/
theorem c4_empty_source_set (b : Backend) (m : Model) (PS : List String)
    (s1 s2 : St) (lg : Int)
    (h1 : ParamChangeM PS "thaw" ⟨m, []⟩ = (s1, Except.ok ()))
    (h2 : likeFitM b "DRMNFB" s1 = (s2, Except.ok lg)) :
    (∀ (like : Model) (change : String),
      ParamChange like [] change =
        (like, some (Err.invalidArgument "No source specified"))) ∧
    IterateFit b PS [] ⟨m, []⟩ =
      (⟨s2.model, s2.trace ++ [Event.activate []]⟩,
       Except.error (Err.invalidArgument "No source specified")) ∧
    runCascade b m PS [] [] =
      ([], some (Err.invalidArgument "No source specified")) := by
  have hempty : ∀ (like : Model) (change : String),
      ParamChange like [] change =
        (like, some (Err.invalidArgument "No source specified")) :=
    fun like change => rfl
  have h3 : ParamChangeM [] "thaw" s2 =
      (⟨s2.model, s2.trace ++ [Event.activate []]⟩,
       Except.error (Err.invalidArgument "No source specified")) :=
    ParamChangeM_err (hempty s2.model "thaw")
  have hiter : IterateFit b PS [] ⟨m, []⟩ =
      (⟨s2.model, s2.trace ++ [Event.activate []]⟩,
       Except.error (Err.invalidArgument "No source specified")) := by
    simp [IterateFit, h1, h2, h3]
  exact ⟨hempty, hiter, by simp [runCascade, hiter]⟩

/-- Witness for C4 with the always-converging backend at a concrete model. -/
theorem c4_empty_source_set_witness :
    (∀ (like : Model) (change : String),
      ParamChange like [] change =
        (like, some (Err.invalidArgument "No source specified"))) ∧
    IterateFit okBackend ["p1"] [] ⟨mW, []⟩ =
      (⟨(⟨⟨mW.sources, [false, true, true, true]⟩,
          [Event.activate ["p1"],
           Event.fit ⟨mW.sources, [false, true, true, true]⟩ fastCall]⟩ : St).model,
        (⟨⟨mW.sources, [false, true, true, true]⟩,
          [Event.activate ["p1"],
           Event.fit ⟨mW.sources, [false, true, true, true]⟩ fastCall]⟩ : St).trace ++
          [Event.activate []]⟩,
       Except.error (Err.invalidArgument "No source specified")) ∧
    runCascade okBackend mW ["p1"] [] [] =
      ([], some (Err.invalidArgument "No source specified")) :=
  c4_empty_source_set okBackend mW ["p1"]
    ⟨⟨mW.sources, [false, true, true, true]⟩, [Event.activate ["p1"]]⟩
    ⟨⟨mW.sources, [false, true, true, true]⟩,
      [Event.activate ["p1"],
       Event.fit ⟨mW.sources, [false, true, true, true]⟩ fastCall]⟩
    7 (by decide) (by decide)

/-! ### The model-comparison cascade -/

theorem snapshots_cons (diffuse : List String) (order : List String) :
    ∃ t, snapshots diffuse order = diffuse :: t := by
  cases order <;> exact ⟨_, rfl⟩

theorem cascadeRounds_ok :
    ∀ (order : List String) (b : Backend) (like : Model)
      (PS diffuse : List String) (roundNo : Nat),
      (cascadeRounds b like PS diffuse order roundNo).2 = none →
      (cascadeRounds b like PS diffuse order roundNo).1.length = order.length ∧
      (cascadeRounds b like PS diffuse order roundNo).1.map
          RoundRecord.activeDiffuse =
        (snapshots diffuse order).tail
  | [], _, _, _, _, _, _ => ⟨rfl, rfl⟩
  | r :: rest, b, like, PS, diffuse, roundNo, hok => by
    rcases hdel : deleteSource like r with e | like1
    · simp [cascadeRounds, hdel] at hok
    · rcases hit : IterateFit b PS (diffuse.erase r) ⟨like1, []⟩ with ⟨s, res⟩
      cases res with
      | error e => simp [cascadeRounds, hdel, hit] at hok
      | ok lg =>
        have hok2 :
            (cascadeRounds b s.model PS (diffuse.erase r) rest (roundNo + 1)).2 =
              none := by
          simpa [cascadeRounds, hdel, hit] using hok
        obtain ⟨hlen, hmap⟩ :=
          cascadeRounds_ok rest b s.model PS (diffuse.erase r) (roundNo + 1) hok2
        obtain ⟨t, ht⟩ := snapshots_cons (diffuse.erase r) rest
        constructor
        · simp [cascadeRounds, hdel, hit, hlen]
        · simp [cascadeRounds, hdel, hit, hmap, snapshots, ht]

theorem snapshots_shrink :
    ∀ (order diffuse : List String),
      (∀ r ∈ order, r ∈ diffuse) → order.Nodup →
      ∀ trip ∈ ((snapshots diffuse order).zip
          (snapshots diffuse order).tail).zip order,
        trip.1.2 = trip.1.1.erase trip.2 ∧
        trip.1.2.length + 1 = trip.1.1.length ∧ trip.2 ∈ trip.1.1
  | [], diffuse, _, _ => by simp [snapshots]
  | r :: rest, diffuse, hcon, hnd => by
    obtain ⟨t, ht⟩ := snapshots_cons (diffuse.erase r) rest
    intro trip htrip
    simp only [snapshots, ht, List.tail_cons, List.zip_cons_cons,
      List.mem_cons] at htrip
    rcases htrip with heq | hmem
    · subst heq
      have hr : r ∈ diffuse := hcon r (List.mem_cons_self r rest)
      have h1 := List.length_erase_of_mem hr
      have h2 := List.length_pos_of_mem hr
      refine ⟨rfl, ?_, hr⟩
      show (diffuse.erase r).length + 1 = diffuse.length
      omega
    · have hcon2 : ∀ r2 ∈ rest, r2 ∈ diffuse.erase r := by
        intro r2 hr2
        have hne : r2 ≠ r := by
          intro hc
          exact (List.nodup_cons.mp hnd).1 (hc ▸ hr2)
        exact (List.mem_erase_of_ne hne).mpr (hcon r2 (List.mem_cons_of_mem r hr2))
      have ih := snapshots_shrink rest (diffuse.erase r) hcon2
        (List.nodup_cons.mp hnd).2
      rw [ht] at ih
      simp only [List.tail_cons] at ih
      exact ih trip hmem

/-- C3: a cascade run that terminates without error over a removal order of
pairwise distinct names contained in the initial diffuse set produces
exactly `1 + removalOrder.length` round records, whose diffuse-set
snapshots are the initial set followed by the successive one-name erasures,
and the snapshot strictly shrinks by exactly the round removal name each
round after round 0. -/
theorem c3_cascade_round_records (b : Backend) (like : Model)
    (PS diffuse order : List String)
    (hcontain : ∀ r ∈ order, r ∈ diffuse) (hnodupO : order.Nodup)
    (hok : (runCascade b like PS diffuse order).2 = none) :
    (runCascade b like PS diffuse order).1.length = 1 + order.length ∧
    (runCascade b like PS diffuse order).1.map RoundRecord.activeDiffuse =
      snapshots diffuse order ∧
    (∀ trip ∈ ((snapshots diffuse order).zip
        (snapshots diffuse order).tail).zip order,
      trip.1.2 = trip.1.1.erase trip.2 ∧
      trip.1.2.length + 1 = trip.1.1.length ∧ trip.2 ∈ trip.1.1) := by
  rcases hit : IterateFit b PS diffuse ⟨like, []⟩ with ⟨s, res⟩
  cases res with
  | error e =>
    exfalso
    simp [runCascade, hit] at hok
  | ok lg =>
    have hok2 : (cascadeRounds b s.model PS diffuse order 1).2 = none := by
      simpa [runCascade, hit] using hok
    obtain ⟨hlen, hmap⟩ := cascadeRounds_ok order b s.model PS diffuse 1 hok2
    obtain ⟨t, ht⟩ := snapshots_cons diffuse order
    refine ⟨?_, ?_, snapshots_shrink order diffuse hcontain hnodupO⟩
    · simp [runCascade, hit, hlen]
      omega
    · simp [runCascade, hit, hmap, ht]

/-- Witness for C3: removal order `[a, b]` over initial diffuse set
`{a, b, c}` gives three records with snapshots `{a,b,c}`, `{b,c}`, `{c}`. -/
theorem c3_cascade_round_records_witness :
    ((runCascade okBackend mABC ["p1"] ["a", "b", "c"] ["a", "b"]).1.length =
        1 + (["a", "b"] : List String).length ∧
      (runCascade okBackend mABC ["p1"] ["a", "b", "c"] ["a", "b"]).1.map
          RoundRecord.activeDiffuse =
        snapshots ["a", "b", "c"] ["a", "b"] ∧
      (∀ trip ∈ ((snapshots ["a", "b", "c"] ["a", "b"]).zip
          (snapshots ["a", "b", "c"] ["a", "b"]).tail).zip ["a", "b"],
        trip.1.2 = trip.1.1.erase trip.2 ∧
        trip.1.2.length + 1 = trip.1.1.length ∧ trip.2 ∈ trip.1.1)) ∧
    snapshots ["a", "b", "c"] ["a", "b"] = [["a", "b", "c"], ["b", "c"], ["c"]] :=
  ⟨c3_cascade_round_records okBackend mABC ["p1"] ["a", "b", "c"] ["a", "b"]
      (by decide) (by decide) (by decide),
   by decide⟩

end RhoOph
